import Mathlib

/-!
Verification of the gvallee/comm communication library.

This file shallowly embeds the parts of the library that the claims are
about:

- the TCP framed-message encoder and decoder of
  src/internal/pkg/util/util.go (package transport): setHeader,
  setPayload, ExtractPayload, ExtractDest, ExtractSrc, GetPayloadFromRX,
  together with the unsigned varint encoding of encoding/binary
  (PutUvarint and Uvarint) that they rely on;
- the connection establishment path: initHandshake and ConnectToPort;
- the buffer-ownership behaviour of the receive worker (CONNACK case)
  and of the endpoint event thread (src/pkg/comm/ep.go);
- the SendMsg path with its TX pool and unbuffered send channel;
- the shared-memory transport of src/pkg/transport/sm.go: Init and the
  Send and Recv block hand-off, as a transition system;
- the identifier generator GenerateID of
  src/internal/pkg/util/util.go (package util);
- the transport facade Send and Recv of src/pkg/comm/transport.go.

Byte buffers (the Go byte slices backing TX and RX frames) are modelled
as total functions from index to byte value; a byte-copy loop of the Go
source becomes the writeBytes primitive and a slice read becomes
readBytes.  Go strings become lists of byte values via strBytes.
Machine integers are modelled as Nat with explicit truncation where the
Go source can overflow (the uint64 arithmetic inside Uvarint).
-/

set_option maxRecDepth 10000

namespace Comm

/-- A byte buffer: the value of the byte at every index.  Models a Go
byte slice together with the convention that all claims only ever read
indices inside the slice. -/
def Buf : Type := Nat → Nat

/-- A freshly pooled buffer: the memory pool is configured with erase-on
return semantics, so a buffer obtained from a pool reads as all zero
bytes. -/
def zeroBuf : Buf := fun _ => 0

/-- Writing the byte list data into a buffer starting at offset off.
Models the Go copy loops such as the one in setHeader:
for i starting at 0 while i below the data length, the byte at
off plus i becomes data index i. -/
def writeBytes (buf : Buf) (off : Nat) (data : List Nat) : Buf :=
  fun i => if off ≤ i ∧ i < off + data.length then data.getD (i - off) 0 else buf i

/-- Reading len bytes from a buffer starting at offset off, as a list.
Models a Go slice expression buf from off for len bytes. -/
def readBytes (buf : Buf) (off len : Nat) : List Nat :=
  (List.range len).map (fun i => buf (off + i))

/-- The byte values of a Go string literal. -/
def strBytes (s : String) : List Nat :=
  s.data.map (fun c => c.toNat)

/-! ## TCP frame layout

Constants from src/internal/pkg/util/util.go (package transport).
payloadSizeLen is binary.MaxVarintLen64, which is 10. -/

def msgTypeLen : Nat := 16
def srcLen : Nat := 256
def dstLen : Nat := 256
def sizeOfSizeLen : Nat := 8
def payloadSizeLen : Nat := 10

def msgTypeOffset : Nat := 0
def srcOffset : Nat := msgTypeOffset + msgTypeLen
def dstOffset : Nat := srcOffset + srcLen
def sizeOfSizeOffset : Nat := dstOffset + dstLen
def payloadSizeOffset : Nat := sizeOfSizeOffset + sizeOfSizeLen
def payloadOffset : Nat := payloadSizeOffset + payloadSizeLen

/-- Message tag INTERNAL:TERMINA. -/
def TERMMSG : String := "INTERNAL:TERMINA"
/-- Message tag INTERNAL:CONNECT. -/
def CONNREQ : String := "INTERNAL:CONNECT"
/-- Message tag INTERNAL:CONNACK. -/
def CONNACK : String := "INTERNAL:CONNACK"
/-- Message tag INTERNAL:DATAMSG. -/
def DATAMSG : String := "INTERNAL:DATAMSG"

/-- Header of a TCP frame, from the Go structure TCPHeader: a message
type tag and the source and destination endpoint identifiers, all byte
strings. -/
structure TCPHeader where
  MsgType : List Nat
  Src : List Nat
  Dst : List Nat

/-- Go function setHeader: writes the message type at offset 0, the
source identifier at srcOffset and the destination identifier at
dstOffset, each by a byte-copy loop over the string's own length. -/
def setHeader (tx : Buf) (hdr : TCPHeader) : Buf :=
  writeBytes (writeBytes (writeBytes tx msgTypeOffset hdr.MsgType) srcOffset hdr.Src)
    dstOffset hdr.Dst

/-! ## The unsigned varint codec of encoding/binary

binary.PutUvarint writes x seven bits at a time, least significant
first, setting the top bit of every byte except the last.
binary.Uvarint reads bytes until one with a clear top bit, folding each
seven-bit group into a uint64 accumulator; it returns the value and the
number of bytes read, or zero and a negative count on overflow. -/

/-- Loop of Go binary.PutUvarint: while x is at least 128 emit the low
seven bits of x with the top bit set (the Go source computes byte x
or-ed with 0x80, which equals 128 plus x mod 128) and shift x right by
seven; finally emit x itself.  The Go input is a uint64, below 2 to the
64, so the loop body runs at most ten times; the fuel argument bounds
the remaining iterations and is never exhausted on uint64 inputs. -/
def putUvarintAux : Nat → Nat → List Nat
  | 0, x => [x]
  | fuel + 1, x => if x < 128 then [x] else (128 + x % 128) :: putUvarintAux fuel (x / 128)

/-- Go binary.PutUvarint, as the list of bytes it writes (the Go result
value, the byte count, is the length of this list). -/
def putUvarint (x : Nat) : List Nat := putUvarintAux 10 x

/-- Loop of Go binary.Uvarint over the byte list buf, carrying the byte
index i, the shift s and the uint64 accumulator x.  Each uint64
operation is truncated modulo 2 to the 64.  A nonpositive second
component signals overflow, as in the Go source. -/
def uvarintLoop : List Nat → Nat → Nat → Nat → Nat × Int
  | [], _, _, _ => (0, 0)
  | b :: rest, i, s, x =>
    if i = 10 then (0, -((i : Int) + 1))
    else if b < 128 then
      if i = 9 ∧ 1 < b then (0, -((i : Int) + 1))
      else (x ||| ((b <<< s) % 2 ^ 64), (i : Int) + 1)
    else uvarintLoop rest (i + 1) (s + 7) (x ||| (((b &&& 127) <<< s) % 2 ^ 64))

/-- Go binary.Uvarint. -/
def Uvarint (buf : List Nat) : Nat × Int := uvarintLoop buf 0 0 0

/-- Go function setPayload: encodes the payload length as an unsigned
varint at payloadSizeOffset, stores the byte count of that varint at
sizeOfSizeOffset, then copies the payload at payloadOffset. -/
def setPayload (tx : Buf) (payload : List Nat) : Buf :=
  let v := putUvarint payload.length
  writeBytes (writeBytes (writeBytes tx payloadSizeOffset v) sizeOfSizeOffset [v.length])
    payloadOffset payload

/-- Go method ExtractPayload: reads the varint byte count at
sizeOfSizeOffset, decodes the payload size from the varint window, and
on success returns the payloadSize bytes at payloadOffset; a byte-count
mismatch is the error return. -/
def ExtractPayload (rx : Buf) : Option (List Nat) :=
  let sizeOfSize := rx sizeOfSizeOffset
  let r := Uvarint (readBytes rx payloadSizeOffset sizeOfSize)
  if r.2 ≠ (sizeOfSize : Int) then none
  else some (readBytes rx payloadOffset r.1)

/-- Go method ExtractDest: the 256 destination bytes of a frame. -/
def ExtractDest (rx : Buf) : List Nat :=
  readBytes rx dstOffset dstLen

/-- Go method ExtractSrc: the 256 source bytes of a frame. -/
def ExtractSrc (rx : Buf) : List Nat :=
  readBytes rx srcOffset srcLen

/-- Go method GetMsgTypeFromRX: the 16 message-type bytes of a frame. -/
def GetMsgTypeFromRX (rx : Buf) : List Nat :=
  readBytes rx msgTypeOffset msgTypeLen

/-- Go method GetPayloadFromRX: decodes the payload size like
ExtractPayload, returns nil (none) on a byte-count mismatch or a zero
payload size, and otherwise returns payloadSize bytes starting at
msgTypeOffset, exactly as the source does. -/
def GetPayloadFromRX (rx : Buf) : Option (List Nat) :=
  let sizeOfSize := rx sizeOfSizeOffset
  let r := Uvarint (readBytes rx payloadSizeOffset sizeOfSize)
  if r.2 ≠ (sizeOfSize : Int) then none
  else if r.1 = 0 then none
  else some (readBytes rx msgTypeOffset r.1)

/-! ## Connection establishment: initHandshake and ConnectToPort

From src/internal/pkg/util/util.go (package transport). -/

/-- Go built-in copy(dst, src): overwrites the first n bytes of dst
where n is the smaller of the two lengths, leaving the length of dst
unchanged, and returns dst. -/
def goCopy (dst src : List Nat) : List Nat :=
  src.take (min dst.length src.length) ++ dst.drop (min dst.length src.length)

/-- Go method initHandshake, after the CONNREQ has been queued: the
worker synchronously reads one frame rx, requires its type to be
CONNACK, then declares var serverID as a nil byte slice, extracts the
source field and runs copy of the source bytes into serverID, returning
serverID as a string.  The frame read from the socket is the rx
parameter. -/
def initHandshake (rx : Buf) : Except String (List Nat) :=
  if GetMsgTypeFromRX rx = strBytes CONNACK then
    Except.ok (goCopy [] (ExtractSrc rx))
  else
    Except.error "unexpected message type"

/-- Outcome of the dial loop of ConnectToPort: either some dial attempt
succeeded, or every attempt failed and the retries ran out.  Records the
sleeps performed, in seconds, in order. -/
inductive DialOutcome where
  | connected (delays : List Nat) (attempt : Nat)
  | exhausted (delays : List Nat)

/-- The retry loop of Go method ConnectToPort: attempt a dial; on error,
if retry is below MaxRetry, increment retry, sleep retry seconds and
try again; once retries are exhausted give up.  The environment is the
dial oracle telling whether the k-th dial attempt succeeds. -/
def dialLoop (dial : Nat → Bool) (maxRetry retry : Nat) (delays : List Nat) : DialOutcome :=
  if dial retry then DialOutcome.connected delays retry
  else if retry < maxRetry then dialLoop dial maxRetry (retry + 1) (delays ++ [retry + 1])
  else DialOutcome.exhausted delays
termination_by maxRetry + 1 - retry
decreasing_by omega

/-- Go method ConnectToPort: run the dial loop starting at retry zero.
When the retries are exhausted the source returns the pair of an empty
string and a nil error.  On a connection it starts the send worker and
runs initHandshake, whose synchronously read frame is the hsFrame
parameter; a handshake failure is wrapped into a non-nil error, a
handshake success returns the server identifier with a nil error.
Result: the returned pair (identifier, error as an Option) together
with the list of sleeps performed, in seconds. -/
def ConnectToPort (dial : Nat → Bool) (hsFrame : Buf) (maxRetry : Nat) :
    (List Nat × Option String) × List Nat :=
  match dialLoop dial maxRetry 0 [] with
  | DialOutcome.exhausted delays => (([], none), delays)
  | DialOutcome.connected delays _ =>
    match initHandshake hsFrame with
    | Except.ok id => ((id, none), delays)
    | Except.error e => (([], some e), delays)

/-! ## Buffer ownership in the receive worker and the event thread -/

/-- Bookkeeping for one RX buffer: how many times it has been handed
back to the RX pool with Return. -/
structure RxPoolState where
  rxReturned : Nat

/-- One call of Pool.Return on the tracked RX buffer. -/
def rxReturn (s : RxPoolState) : RxPoolState :=
  { rxReturned := s.rxReturned + 1 }

/-- Go function handleConnAck: reads the remote endpoint identifier
from the destination field of the frame, appends it to remoteEPs, and
returns the RX buffer to the RX pool. -/
def handleConnAck (remoteEPs : List (List Nat)) (rx : Buf) (s : RxPoolState) :
    List (List Nat) × RxPoolState :=
  (remoteEPs ++ [ExtractDest rx], rxReturn s)

/-- The CONNACK case of the switch in Go function recvThread: it calls
handleConnAck on the frame and then calls Return on the same RX buffer
itself. -/
def recvThreadConnAckCase (remoteEPs : List (List Nat)) (rx : Buf) (s : RxPoolState) :
    List (List Nat) × RxPoolState :=
  let r := handleConnAck remoteEPs rx s
  (r.1, rxReturn r.2)

/-- State seen by the endpoint event thread of src/pkg/comm/ep.go: the
transport receive queue (a Go channel, first in first out), the number
of Return calls made to the RX pool, and the payloads emitted as user
data events so far. -/
structure EPEventState where
  recvQueue : List Buf
  rxReturned : Nat
  rxEvents : List (Option (List Nat))

/-- One iteration of Go function eventThread for a TCP transport whose
receive queue is non-empty: dequeue the RX, fill the event data with
GetPayloadFromRX of the RX, send the RX back into the receive queue,
and emit the event.  The RX pool is never touched. -/
def eventThreadStep (s : EPEventState) : EPEventState :=
  match s.recvQueue with
  | [] => s
  | rx :: rest =>
    { recvQueue := rest ++ [rx]
      rxReturned := s.rxReturned
      rxEvents := s.rxEvents ++ [GetPayloadFromRX rx] }

/-! ## The SendMsg path with the TX pool and the send channel -/

/-- State of the send side of a TCP transport: number of TX buffers
still available in the TX pool, contents of the send channel, capacity
of the send channel, and whether the send worker goroutine is running
and therefore ready to receive from the channel. -/
structure TcpSendState where
  txAvail : Nat
  sendQueue : List Nat
  sendQueueCap : Nat
  workerRunning : Bool

/-- Result of one SendMsg call: success, the pool-exhaustion error, or
the goroutine blocking forever on the channel send. -/
inductive SendMsgResult where
  | ok
  | poolExhausted
  | blocked
deriving DecidableEq

/-- Go method SendMsg: get a TX buffer from the TX pool, failing with
the pool-exhaustion error when none is available; write the header and
payload into it; then send it on the send channel.  A Go channel send
completes only when a receiver is ready or the channel buffer has room;
otherwise the caller blocks, still holding the TX buffer. -/
def SendMsg (s : TcpSendState) : SendMsgResult × TcpSendState :=
  if s.txAvail = 0 then (SendMsgResult.poolExhausted, s)
  else if s.workerRunning ∨ s.sendQueue.length < s.sendQueueCap then
    (SendMsgResult.ok,
      { s with txAvail := s.txAvail - 1, sendQueue := s.sendQueue ++ [s.txAvail] })
  else
    (SendMsgResult.blocked, { s with txAvail := s.txAvail - 1 })

/-- The send-side state right after Go method TCPTransportCfg.Init with
a TX pool holding nTx buffers: the source creates the send queue as an
unbuffered channel (capacity zero) and no worker is started for a
transport that neither accepts nor connects. -/
def tcpInitSendState (nTx : Nat) : TcpSendState :=
  { txAvail := nTx, sendQueue := [], sendQueueCap := 0, workerRunning := false }

/-! ## Shared-memory transport, src/pkg/transport/sm.go -/

def defaultBlockSize : Nat := 4096
def defaultNumBlocks : Nat := 512

/-- Configuration of the shared-memory transport: a block geometry and
two peer identifiers. -/
structure SMTransportCfg where
  blockSize : Nat
  numBlocks : Nat
  peer1 : String
  peer2 : String

/-- The memory mapping owned by an SM transport: its byte size, the
block size recorded at creation, and the mapped bytes. -/
structure MmapInfo where
  size : Nat
  blockSize : Nat
  buffer : Buf

/-- Go method createMMAP: creates a temporary file, writes blockSize
times numBlocks zero bytes into it, and memory-maps that many bytes
shared and anonymous.  File creation and the write are modelled as
succeeding; the mmap system call on a zero-length region fails (EINVAL),
which makes the zero-size configuration the failure case.  An anonymous
shared mapping starts zero-filled. -/
def createMMAP (cfg : SMTransportCfg) : Option MmapInfo :=
  let size := cfg.blockSize * cfg.numBlocks
  if size = 0 then none
  else some { size := size, blockSize := cfg.blockSize, buffer := zeroBuf }

/-- An initialized shared-memory transport: its (default-completed)
configuration, the two peer identifiers of the peers array, the mapping,
the free-block channel contents and capacity, and the two per-peer
receive channels.  The source never copies cfg.peer1 and cfg.peer2 into
the peers array, so both peer identifiers stay at the zero value, the
empty string. -/
structure SMTransport where
  cfg : SMTransportCfg
  peer1id : String
  peer2id : String
  mmapInfo : MmapInfo
  availBlocks : List Nat
  availCap : Nat
  recvQueue1 : List Nat
  recvQueue2 : List Nat

/-- Go method SMTransportCfg.Init: create the mapping from the raw
configuration (before any defaulting), then replace a zero blockSize or
numBlocks with the defaults in the stored copy of the configuration,
overwrite the mapping size with the product of the raw configuration
fields, create the free-block channel with capacity defaultNumBlocks
and the two unbuffered receive channels, and preload the free channel
with the block indices 0 up to defaultNumBlocks, in order. -/
def SMTransportCfg.Init (cfg : SMTransportCfg) : Option SMTransport :=
  match createMMAP cfg with
  | none => none
  | some info =>
    some
      { cfg :=
          { cfg with
            blockSize := if cfg.blockSize = 0 then defaultBlockSize else cfg.blockSize
            numBlocks := if cfg.numBlocks = 0 then defaultNumBlocks else cfg.numBlocks }
        peer1id := ""
        peer2id := ""
        mmapInfo := { info with size := cfg.blockSize * cfg.numBlocks }
        availBlocks := List.range defaultNumBlocks
        availCap := defaultNumBlocks
        recvQueue1 := []
        recvQueue2 := [] }

/-- Go method mmapInfo.writeAt reached through doWriteBlock: slice the
mapped bytes from the block offset and copy the data into the slice.
When the offset lies past the end of the mapping the slice expression
panics, so no completed operation results (none).  Otherwise the copy
built-in writes at most the room left in the mapping, and writeAt
reports an error exactly when it wrote fewer bytes than the data holds:
the second component is true when the whole data fit. -/
def smWriteBlock (info : MmapInfo) (idx : Nat) (data : List Nat) :
    Option (MmapInfo × Bool) :=
  let off := idx * info.blockSize
  if info.size < off then none
  else
    some
      ({ info with buffer := writeBytes info.buffer off (data.take (info.size - off)) },
        decide (data.length ≤ info.size - off))

/-- Go method SMTransport.Send, as one completed operation: receive a
block from the free channel (blocking while it is empty, hence no
completed operation from an empty free list), then run doWriteBlock.  A
panic inside writeAt aborts the goroutine, so no completed operation
results.  When writeAt reports a short write, Send returns the error
early: the dequeued descriptor is then in no channel at all.  Only on a
full write is the descriptor sent on, to the receive channel of peer 1
when dst equals the identifier of peer 1 and to the receive channel of
peer 2 otherwise. -/
def SMTransport.SendStep (tpt : SMTransport) (dst : String) (data : List Nat) :
    Option SMTransport :=
  match tpt.availBlocks with
  | [] => none
  | b :: rest =>
    match smWriteBlock tpt.mmapInfo b data with
    | none => none
    | some r =>
      if r.2 then
        if tpt.peer1id = dst then
          some { tpt with availBlocks := rest, mmapInfo := r.1,
                          recvQueue1 := tpt.recvQueue1 ++ [b] }
        else
          some { tpt with availBlocks := rest, mmapInfo := r.1,
                          recvQueue2 := tpt.recvQueue2 ++ [b] }
      else
        some { tpt with availBlocks := rest, mmapInfo := r.1 }

/-- Go method SMTransport.Recv, as one completed operation: receive a
block descriptor from the receive channel selected by comparing src
with the identifier of peer 1 (blocking while that channel is empty),
then run readAt on blockSize bytes at the block offset.  When the slice
of the mapped bytes reaches past the end of the mapping, the slice
expression inside readAt panics, so no completed operation results.
Otherwise the copy into the fresh blockSize-byte destination always
transfers exactly blockSize bytes, so the nil return of readAt, and
with it the branch of Recv that would drop the descriptor without
returning it, is unreachable: the descriptor goes back to the free
channel and the bytes are returned. -/
def SMTransport.RecvStep (tpt : SMTransport) (src : String) :
    Option (SMTransport × List Nat) :=
  if tpt.peer1id = src then
    match tpt.recvQueue1 with
    | [] => none
    | b :: rest =>
      if b * tpt.mmapInfo.blockSize + tpt.mmapInfo.blockSize ≤ tpt.mmapInfo.size then
        some ({ tpt with recvQueue1 := rest, availBlocks := tpt.availBlocks ++ [b] },
          readBytes tpt.mmapInfo.buffer (b * tpt.mmapInfo.blockSize) tpt.mmapInfo.blockSize)
      else none
  else
    match tpt.recvQueue2 with
    | [] => none
    | b :: rest =>
      if b * tpt.mmapInfo.blockSize + tpt.mmapInfo.blockSize ≤ tpt.mmapInfo.size then
        some ({ tpt with recvQueue2 := rest, availBlocks := tpt.availBlocks ++ [b] },
          readBytes tpt.mmapInfo.buffer (b * tpt.mmapInfo.blockSize) tpt.mmapInfo.blockSize)
      else none

/-- States of an SM transport reachable from a successful Init by any
sequence of completed Send and Recv operations. -/
inductive SMReachable (cfg : SMTransportCfg) : SMTransport → Prop where
  | init : ∀ t, SMTransportCfg.Init cfg = some t → SMReachable cfg t
  | send : ∀ t t2 dst data, SMReachable cfg t → t.SendStep dst data = some t2 →
      SMReachable cfg t2
  | recv : ∀ t t2 src data, SMReachable cfg t → t.RecvStep src = some (t2, data) →
      SMReachable cfg t2

/-! ## The identifier generator, src/internal/pkg/util/util.go -/

/-- The ten decimal digit characters of GenerateID. -/
def digits : List Nat := strBytes "0123456789"

/-- The 62 character alphanumeric pool of GenerateID. -/
def allChars : List Nat :=
  strBytes "ABCDEFGHIJKLMNOPQRSTUVWXYZabcdefghijklmnopqrstuvwxyz0123456789"

/-- The fill phase of Go function GenerateID: a 256-byte buffer of
zeros; index 0 receives a random digit; then the loop starting at index
2 (not 1, exactly as in the source) fills indices 2 through 255 from
the alphanumeric pool.  The random draws are supplied by d0, the index
into digits, and picks, the index into the pool for each position. -/
def generateIDFill (d0 : Nat) (picks : Nat → Nat) : List Nat :=
  (List.range' 2 254).foldl (fun b i => b.set i (allChars.getD (picks i) 0))
    ((List.replicate 256 0).set 0 (digits.getD d0 0))

/-- The Go swap closure passed to rand.Shuffle: exchanges the entries at
indices i and j, reading both before writing. -/
def swapL (l : List Nat) (i j : Nat) : List Nat :=
  (l.set i (l.getD j 0)).set j (l.getD i 0)

/-- Go rand.Shuffle over n entries runs i from n minus 1 down to 1 and
swaps index i with a random index j of lesser or equal value.  The
random draws are supplied by js. -/
def shuffleAux (js : Nat → Nat) : Nat → List Nat → List Nat
  | 0, l => l
  | i + 1, l => shuffleAux js i (swapL l (i + 1) (js (i + 1)))

/-- Go function GenerateID: fill the 256-byte buffer, then shuffle it.
The process random state is abstracted by the three draw oracles. -/
def GenerateID (d0 : Nat) (picks js : Nat → Nat) : List Nat :=
  shuffleAux js 255 (generateIDFill d0 picks)

/-! ## Transport facade, src/pkg/comm/transport.go -/

/-- Go method Transport.Send for a TCP concrete transport: builds a
header whose MsgType is the DATAMSG tag and whose Src is the endpoint
identifier, leaving Dst at its zero value, the empty string, and hands
header and message to TCP SendMsg, which writes them into a freshly
pooled TX buffer.  The resulting frame bytes. -/
def facadeSendFrame (epID msg : List Nat) : Buf :=
  setPayload (setHeader zeroBuf
    { MsgType := strBytes "INTERNAL:DATAMSG", Src := epID, Dst := [] }) msg

/-- The two reads Go method Transport.Recv performs on a frame dequeued
from the receive queue: the destination identifier it hands to
LookupReceiver, and the payload it emits on the endpoint event queue. -/
def TransportRecv (rx : Buf) : List Nat × Option (List Nat) :=
  (ExtractDest rx, GetPayloadFromRX rx)

/-! ## Sample frames used as concrete inputs -/

/-- A DATAMSG frame carrying the two-byte payload hi, as SendMsg builds
it into a fresh TX buffer. -/
def sampleDataRx : Buf :=
  setPayload (setHeader zeroBuf
    { MsgType := strBytes DATAMSG, Src := strBytes "s", Dst := strBytes "d" }) (strBytes "hi")

/-- A CONNACK frame as the accepting side builds it during the
handshake, with the server identifier in the source field. -/
def sampleConnAckRx : Buf :=
  setPayload (setHeader zeroBuf
    { MsgType := strBytes CONNACK, Src := strBytes "server", Dst := strBytes "client" }) []

/-- A small shared-memory configuration used as a concrete input. -/
def smSampleCfg : SMTransportCfg :=
  { blockSize := 1, numBlocks := 1, peer1 := "A", peer2 := "B" }

/-- The transport that Init builds from smSampleCfg. -/
def smSampleT : SMTransport :=
  { cfg := { blockSize := 1, numBlocks := 1, peer1 := "A", peer2 := "B" }
    peer1id := ""
    peer2id := ""
    mmapInfo := { size := 1, blockSize := 1, buffer := zeroBuf }
    availBlocks := List.range defaultNumBlocks
    availCap := defaultNumBlocks
    recvQueue1 := []
    recvQueue2 := [] }

/-- The state after one Send on the sample transport whose two-byte
payload exceeds the one-byte room of block 0: writeAt comes up short,
Send returns the error early, and descriptor 0 is dropped from every
channel. -/
def smDropT : SMTransport :=
  { cfg := { blockSize := 1, numBlocks := 1, peer1 := "A", peer2 := "B" }
    peer1id := ""
    peer2id := ""
    mmapInfo := { size := 1, blockSize := 1, buffer := writeBytes zeroBuf 0 [5] }
    availBlocks := (List.range defaultNumBlocks).tail
    availCap := defaultNumBlocks
    recvQueue1 := []
    recvQueue2 := [] }

/-! ## Pointwise laws of writeBytes and readBytes -/

theorem writeBytes_apply (buf : Buf) (off : Nat) (data : List Nat) (i : Nat) :
    writeBytes buf off data i =
      if off ≤ i ∧ i < off + data.length then data.getD (i - off) 0 else buf i := rfl

theorem length_readBytes (buf : Buf) (off len : Nat) :
    (readBytes buf off len).length = len := by
  simp [readBytes]

theorem getElem_readBytes (buf : Buf) (off len i : Nat) (h : i < len) :
    (readBytes buf off len).get ⟨i, by simpa [readBytes] using h⟩ = buf (off + i) := by
  simp [readBytes]

/-- Two buffers that agree on a window read equally there. -/
theorem readBytes_congr (f g : Buf) (off len : Nat)
    (h : ∀ i, i < len → f (off + i) = g (off + i)) :
    readBytes f off len = readBytes g off len := by
  apply List.ext_getElem
  · simp [readBytes]
  · intro i h1 h2
    simp only [readBytes, List.getElem_map, List.getElem_range]
    exact h i (by simpa [readBytes] using h1)

/-- Reading a window disjoint from a write sees the original buffer. -/
theorem readBytes_writeBytes_disjoint (buf : Buf) (off : Nat) (data : List Nat)
    (off2 len : Nat) (h : off2 + len ≤ off ∨ off + data.length ≤ off2) :
    readBytes (writeBytes buf off data) off2 len = readBytes buf off2 len := by
  apply readBytes_congr
  intro i hi
  rw [writeBytes_apply]
  rw [if_neg]
  omega

/-- Reading back exactly the window just written yields the data. -/
theorem readBytes_writeBytes_eq (buf : Buf) (off : Nat) (data : List Nat) :
    readBytes (writeBytes buf off data) off data.length = data := by
  apply List.ext_getElem
  · simp [readBytes]
  · intro i h1 h2
    simp only [readBytes, List.getElem_map, List.getElem_range]
    rw [writeBytes_apply, if_pos (by omega)]
    have : off + i - off = i := by omega
    rw [this, List.getD_eq_getElem data 0 h2]

/-- Reading a window that starts at the written data and extends past it:
the data followed by the rest of the underlying buffer. -/
theorem readBytes_writeBytes_extend (buf : Buf) (off : Nat) (data : List Nat)
    (len : Nat) (h : data.length ≤ len) :
    readBytes (writeBytes buf off data) off len =
      data ++ readBytes buf (off + data.length) (len - data.length) := by
  apply List.ext_getElem
  · simp [readBytes]; omega
  · intro i h1 h2
    simp only [readBytes, List.getElem_map, List.getElem_range]
    rw [writeBytes_apply]
    rcases Nat.lt_or_ge i data.length with hlt | hge
    · rw [if_pos (by omega)]
      have hoff : off + i - off = i := by omega
      rw [hoff, List.getElem_append_left (by simpa using hlt),
        List.getD_eq_getElem data 0 hlt]
    · rw [if_neg (by omega)]
      rw [List.getElem_append_right (by simpa using hge)]
      simp only [readBytes, List.getElem_map, List.getElem_range]
      congr 1
      omega

/-- A single byte of a written window. -/
theorem writeBytes_apply_inside (buf : Buf) (off : Nat) (data : List Nat) (i : Nat)
    (h1 : off ≤ i) (h2 : i < off + data.length) :
    writeBytes buf off data i = data.getD (i - off) 0 := by
  rw [writeBytes_apply, if_pos ⟨h1, h2⟩]

/-- A byte outside a written window. -/
theorem writeBytes_apply_outside (buf : Buf) (off : Nat) (data : List Nat) (i : Nat)
    (h : i < off ∨ off + data.length ≤ i) :
    writeBytes buf off data i = buf i := by
  rw [writeBytes_apply, if_neg (by omega)]

/-- Reading from the all-zero buffer gives zeros. -/
theorem readBytes_zeroBuf (off len : Nat) :
    readBytes zeroBuf off len = List.replicate len 0 := by
  apply List.ext_getElem
  · simp [readBytes]
  · intro i h1 h2
    simp [readBytes, zeroBuf]

/-- Bitwise or of disjoint bit ranges is addition: a value below 2 to
the s or-ed with a multiple of 2 to the s. -/
theorem lor_mul_two_pow (s : Nat) :
    ∀ a b : Nat, a < 2 ^ s → a ||| b * 2 ^ s = a + b * 2 ^ s := by
  induction s with
  | zero =>
    intro a b h
    have ha : a = 0 := by omega
    subst ha
    simp
  | succ s ih =>
    intro a b h
    have hd := Nat.bit_decide_mod_two_eq_one_shiftRight_one a
    have hb : b * 2 ^ (s + 1) = Nat.bit false (b * 2 ^ s) := by
      simp only [Nat.bit, Bool.cond_false, pow_succ]
      ring
    have ha2 : a >>> 1 < 2 ^ s := by
      rw [Nat.shiftRight_one]
      rw [pow_succ] at h
      omega
    have h1 : a ||| b * 2 ^ (s + 1) =
        Nat.bit (decide (a % 2 = 1) || false) (a >>> 1 ||| b * 2 ^ s) := by
      conv_lhs => rw [← hd, hb]
      rw [Nat.lor_bit]
    rw [h1, ih _ b ha2, Nat.bit_val, Bool.or_false]
    have hmod : (decide (a % 2 = 1)).toNat = a % 2 := by
      rcases Nat.mod_two_eq_zero_or_one a with h2 | h2 <;> simp [h2]
    rw [hmod, Nat.shiftRight_one]
    have h2 : b * 2 ^ (s + 1) = 2 * (b * 2 ^ s) := by ring
    rw [h2]
    omega

/-- The fuel of the PutUvarint loop is irrelevant once it covers the
number of seven-bit groups of the input. -/
theorem putUvarintAux_fuel_irrel :
    ∀ f1 f2 x : Nat, x < 128 ^ f1 → x < 128 ^ f2 → putUvarintAux f1 x = putUvarintAux f2 x := by
  intro f1
  induction f1 with
  | zero =>
    intro f2 x h1 h2
    have hx : x = 0 := by simpa using h1
    subst hx
    cases f2 with
    | zero => rfl
    | succ g => simp [putUvarintAux]
  | succ f ih =>
    intro f2 x h1 h2
    cases f2 with
    | zero =>
      have hx : x = 0 := by simpa using h2
      subst hx
      simp [putUvarintAux]
    | succ g =>
      by_cases hcase : x < 128
      · simp [putUvarintAux, hcase]
      · simp only [putUvarintAux, if_neg hcase]
        have hd1 : x / 128 < 128 ^ f := by
          rw [Nat.div_lt_iff_lt_mul (by norm_num)]
          calc x < 128 ^ (f + 1) := h1
            _ = 128 ^ f * 128 := by rw [pow_succ]
        have hd2 : x / 128 < 128 ^ g := by
          rw [Nat.div_lt_iff_lt_mul (by norm_num)]
          calc x < 128 ^ (g + 1) := h2
            _ = 128 ^ g * 128 := by rw [pow_succ]
        rw [ih g (x / 128) hd1 hd2]

/-- A value below 128 encodes as the single byte x. -/
theorem putUvarint_base (x : Nat) (h : x < 128) : putUvarint x = [x] := by
  simp [putUvarint, putUvarintAux, h]

/-- One unfolding of the encoder loop for a uint64 value of at least
128: the continuation byte followed by the encoding of the remaining
bits. -/
theorem putUvarint_step (x : Nat) (h128 : 128 ≤ x) (h : x < 2 ^ 64) :
    putUvarint x = (128 + x % 128) :: putUvarint (x / 128) := by
  have hstep : putUvarintAux 10 x =
      if x < 128 then [x] else (128 + x % 128) :: putUvarintAux 9 (x / 128) := rfl
  unfold putUvarint
  rw [hstep, if_neg (by omega)]
  have h9 : x / 128 < 128 ^ 9 := by
    have h63 : (128 : Nat) ^ 9 = 2 ^ 63 := by norm_num
    rw [h63, Nat.div_lt_iff_lt_mul (by norm_num)]
    calc x < 2 ^ 64 := h
      _ ≤ 2 ^ 63 * 128 := by norm_num
  have h10 : x / 128 < 128 ^ 10 := by
    calc x / 128 < 128 ^ 9 := h9
      _ ≤ 128 ^ 10 := Nat.pow_le_pow_right (by norm_num) (by norm_num)
  rw [putUvarintAux_fuel_irrel 9 10 (x / 128) h9 h10]

/-- Crude bound: the encoder emits at most fuel plus one bytes. -/
theorem putUvarintAux_length : ∀ fuel x : Nat, (putUvarintAux fuel x).length ≤ fuel + 1 := by
  intro fuel
  induction fuel with
  | zero => intro x; simp [putUvarintAux]
  | succ f ih =>
    intro x
    by_cases h : x < 128
    · simp [putUvarintAux, h]
    · simp only [putUvarintAux, if_neg h, List.length_cons]
      have := ih (x / 128)
      omega

/-- Precise bound: a value below 128 to the k encodes in at most k
bytes, given enough fuel. -/
theorem putUvarintAux_length_le :
    ∀ fuel k x : Nat, 1 ≤ k → k ≤ fuel + 1 → x < 128 ^ k →
      (putUvarintAux fuel x).length ≤ k := by
  intro fuel
  induction fuel with
  | zero =>
    intro k x h1 _ _
    simpa [putUvarintAux] using h1
  | succ f ih =>
    intro k x h1 hk hx
    by_cases h : x < 128
    · simpa [putUvarintAux, h] using h1
    · simp only [putUvarintAux, if_neg h, List.length_cons]
      have hk2 : 2 ≤ k := by
        by_contra hlt
        have hk1 : k = 1 := by omega
        subst hk1
        simp at hx
        omega
      have hdiv : x / 128 < 128 ^ (k - 1) := by
        rw [Nat.div_lt_iff_lt_mul (by norm_num)]
        calc x < 128 ^ k := hx
          _ = 128 ^ (k - 1) * 128 := by
            rw [← pow_succ]
            congr 1
            omega
      have := ih (k - 1) (x / 128) (by omega) (by omega) hdiv
      omega

/-- A value below 2 to the 7 k encodes in at most k varint bytes. -/
theorem putUvarint_length_le (k x : Nat) (h1 : 1 ≤ k) (hx : x < 2 ^ (7 * k)) :
    (putUvarint x).length ≤ k := by
  rcases le_or_lt k 11 with hk | hk
  · apply putUvarintAux_length_le 10 k x h1 (by omega)
    calc x < 2 ^ (7 * k) := hx
      _ = 128 ^ k := by rw [pow_mul, show (2 : Nat) ^ 7 = 128 from by norm_num]
  · have := putUvarintAux_length 10 x
    unfold putUvarint
    omega

/-- Running the Uvarint loop at byte index i over the encoding of x adds
x shifted by 7 i bits to the accumulator and advances the index by the
encoding length. -/
theorem uvarintLoop_putUvarint :
    ∀ x i acc : Nat, i ≤ 8 → x < 2 ^ (7 * (9 - i)) → acc < 2 ^ (7 * i) →
      uvarintLoop (putUvarint x) i (7 * i) acc =
        (acc + x * 2 ^ (7 * i), ((i + (putUvarint x).length : Nat) : Int)) := by
  intro x
  induction x using Nat.strong_induction_on with
  | _ x ih =>
    intro i acc hi hx hacc
    by_cases h : x < 128
    · rw [putUvarint_base x h]
      rw [uvarintLoop]
      rw [if_neg (by omega)]
      rw [if_pos h, if_neg (by omega)]
      have hshift : (x <<< (7 * i)) % 2 ^ 64 = x * 2 ^ (7 * i) := by
        rw [Nat.shiftLeft_eq]
        apply Nat.mod_eq_of_lt
        calc x * 2 ^ (7 * i) < 128 * 2 ^ (7 * i) := by
              apply Nat.mul_lt_mul_of_lt_of_le h (le_refl _) (Nat.two_pow_pos _)
          _ = 2 ^ (7 + 7 * i) := by rw [pow_add]; norm_num
          _ ≤ 2 ^ 64 := Nat.pow_le_pow_right (by norm_num) (by omega)
      rw [hshift, lor_mul_two_pow (7 * i) acc x hacc]
      simp only [Prod.mk.injEq, List.length_singleton]
      refine ⟨trivial, by omega⟩
    · have hx64 : x < 2 ^ 64 := by
        calc x < 2 ^ (7 * (9 - i)) := hx
          _ ≤ 2 ^ 64 := Nat.pow_le_pow_right (by norm_num) (by omega)
      rw [putUvarint_step x (by omega) hx64]
      rw [uvarintLoop]
      rw [if_neg (by omega), if_neg (by omega)]
      have hb127 : (128 + x % 128) &&& 127 = x % 128 := by
        have h7 := Nat.and_pow_two_sub_one_eq_mod (128 + x % 128) 7
        norm_num at h7
        rw [h7]
      have hilt : i ≤ 7 := by
        by_contra hgt
        have hi8 : i = 8 := by omega
        subst hi8
        norm_num at hx
        omega
      have hshift : ((x % 128) <<< (7 * i)) % 2 ^ 64 = (x % 128) * 2 ^ (7 * i) := by
        rw [Nat.shiftLeft_eq]
        apply Nat.mod_eq_of_lt
        calc (x % 128) * 2 ^ (7 * i) < 128 * 2 ^ (7 * i) := by
              apply Nat.mul_lt_mul_of_lt_of_le (Nat.mod_lt _ (by norm_num)) (le_refl _)
                (Nat.two_pow_pos _)
          _ = 2 ^ (7 + 7 * i) := by rw [pow_add]; norm_num
          _ ≤ 2 ^ 64 := Nat.pow_le_pow_right (by norm_num) (by omega)
      rw [hb127, hshift, lor_mul_two_pow (7 * i) acc (x % 128) hacc]
      have hdiv : x / 128 < 2 ^ (7 * (9 - (i + 1))) := by
        rw [Nat.div_lt_iff_lt_mul (by norm_num)]
        calc x < 2 ^ (7 * (9 - i)) := hx
          _ ≤ 2 ^ (7 * (9 - (i + 1)) + 7) := by
              apply Nat.pow_le_pow_right (by norm_num)
              omega
          _ = 2 ^ (7 * (9 - (i + 1))) * 128 := by rw [pow_add]; norm_num
      have hacc2 : acc + x % 128 * 2 ^ (7 * i) < 2 ^ (7 * (i + 1)) := by
        have hm : x % 128 ≤ 127 := by omega
        calc acc + x % 128 * 2 ^ (7 * i) < 2 ^ (7 * i) + 127 * 2 ^ (7 * i) := by
              have := Nat.mul_le_mul_right (2 ^ (7 * i)) hm
              omega
          _ = 128 * 2 ^ (7 * i) := by ring
          _ = 2 ^ (7 * (i + 1)) := by rw [show 7 * (i + 1) = 7 + 7 * i by ring, pow_add]; norm_num
      have hrec := ih (x / 128) (Nat.div_lt_self (by omega) (by norm_num)) (i + 1)
        (acc + x % 128 * 2 ^ (7 * i)) (by omega) hdiv hacc2
      rw [show 7 * i + 7 = 7 * (i + 1) by ring, hrec]
      simp only [Prod.mk.injEq, List.length_cons]
      constructor
      · have hp : 2 ^ (7 * (i + 1)) = 128 * 2 ^ (7 * i) := by
          rw [show 7 * (i + 1) = 7 + 7 * i by ring, pow_add]
          norm_num
        rw [hp]
        have hsplit := Nat.div_add_mod x 128
        calc acc + x % 128 * 2 ^ (7 * i) + x / 128 * (128 * 2 ^ (7 * i))
            = acc + (128 * (x / 128) + x % 128) * 2 ^ (7 * i) := by ring
          _ = acc + x * 2 ^ (7 * i) := by rw [hsplit]
      · omega

/-- Round trip of the varint codec for sizes below 2 to the 63 (every
Go int fits). -/
theorem Uvarint_putUvarint (x : Nat) (h : x < 2 ^ 63) :
    Uvarint (putUvarint x) = (x, ((putUvarint x).length : Int)) := by
  have h9 : x < 2 ^ (7 * (9 - 0)) := by norm_num; omega
  have := uvarintLoop_putUvarint x 0 0 (by omega) h9 (by norm_num)
  simpa [Uvarint] using this

/-! ## Frame layout facts -/

theorem srcOffset_eq : srcOffset = 16 := rfl
theorem dstOffset_eq : dstOffset = 272 := rfl
theorem sizeOfSizeOffset_eq : sizeOfSizeOffset = 528 := rfl
theorem payloadSizeOffset_eq : payloadSizeOffset = 536 := rfl
theorem payloadOffset_eq : payloadOffset = 546 := rfl

/-- A Go int payload length (below 2 to the 63) encodes in at most nine
varint bytes. -/
theorem putUvarint_length_le_nine (x : Nat) (h : x < 2 ^ 63) :
    (putUvarint x).length ≤ 9 :=
  putUvarint_length_le 9 x (by norm_num) (by norm_num at h ⊢; omega)

/-- Decoding a frame written by setPayload recovers exactly the payload,
whatever buffer setPayload wrote into. -/
theorem ExtractPayload_setPayload (buf : Buf) (payload : List Nat)
    (h : payload.length < 2 ^ 63) :
    ExtractPayload (setPayload buf payload) = some payload := by
  have hv9 : (putUvarint payload.length).length ≤ 9 := putUvarint_length_le_nine _ h
  unfold ExtractPayload setPayload
  simp only [sizeOfSizeOffset_eq, payloadSizeOffset_eq, payloadOffset_eq]
  have h528 : writeBytes (writeBytes (writeBytes buf 536 (putUvarint payload.length)) 528
      [(putUvarint payload.length).length]) 546 payload 528 = (putUvarint payload.length).length := by
    rw [writeBytes_apply_outside _ _ _ _ (Or.inl (by norm_num))]
    rw [writeBytes_apply_inside _ _ _ _ (le_refl _) (by simp)]
    simp
  rw [h528]
  have hvread : readBytes (writeBytes (writeBytes (writeBytes buf 536 (putUvarint payload.length))
      528 [(putUvarint payload.length).length]) 546 payload) 536 (putUvarint payload.length).length =
      putUvarint payload.length := by
    rw [readBytes_writeBytes_disjoint _ _ _ _ _ (Or.inl (by omega))]
    rw [readBytes_writeBytes_disjoint _ _ _ _ _ (Or.inr (by simp))]
    exact readBytes_writeBytes_eq buf 536 (putUvarint payload.length)
  rw [hvread, Uvarint_putUvarint payload.length h]
  rw [if_neg (by simp)]
  rw [readBytes_writeBytes_eq]

/-- The message-type bytes of a frame written by setHeader into a fresh
buffer and then completed by setPayload. -/
theorem frame_msgType (hdr : TCPHeader) (payload : List Nat)
    (hmt : hdr.MsgType.length = msgTypeLen) :
    readBytes (setPayload (setHeader zeroBuf hdr) payload) msgTypeOffset msgTypeLen =
      hdr.MsgType := by
  unfold setPayload setHeader
  simp only [msgTypeOffset, msgTypeLen, srcOffset_eq, dstOffset_eq, sizeOfSizeOffset_eq,
    payloadSizeOffset_eq, payloadOffset_eq] at *
  rw [readBytes_writeBytes_disjoint _ _ _ _ _ (Or.inl (by norm_num))]
  rw [readBytes_writeBytes_disjoint _ _ _ _ _ (Or.inl (by norm_num))]
  rw [readBytes_writeBytes_disjoint _ _ _ _ _ (Or.inl (by norm_num))]
  rw [readBytes_writeBytes_disjoint _ _ _ _ _ (Or.inl (by norm_num))]
  rw [readBytes_writeBytes_disjoint _ _ _ _ _ (Or.inl (by norm_num))]
  rw [← hmt]
  exact readBytes_writeBytes_eq zeroBuf 0 hdr.MsgType

/-- The source bytes of such a frame: the source identifier, zero
padded to 256 bytes. -/
theorem frame_src (hdr : TCPHeader) (payload : List Nat)
    (hmt : hdr.MsgType.length = msgTypeLen) (hsrc : hdr.Src.length ≤ srcLen) :
    readBytes (setPayload (setHeader zeroBuf hdr) payload) srcOffset srcLen =
      hdr.Src ++ List.replicate (srcLen - hdr.Src.length) 0 := by
  unfold setPayload setHeader
  simp only [msgTypeOffset, msgTypeLen, srcLen, srcOffset_eq, dstOffset_eq, sizeOfSizeOffset_eq,
    payloadSizeOffset_eq, payloadOffset_eq] at *
  rw [readBytes_writeBytes_disjoint _ _ _ _ _ (Or.inl (by norm_num))]
  rw [readBytes_writeBytes_disjoint _ _ _ _ _ (Or.inl (by norm_num))]
  rw [readBytes_writeBytes_disjoint _ _ _ _ _ (Or.inl (by norm_num))]
  rw [readBytes_writeBytes_disjoint _ _ _ _ _ (Or.inl (by norm_num))]
  rw [readBytes_writeBytes_extend _ _ _ _ hsrc]
  rw [readBytes_writeBytes_disjoint _ _ _ _ _ (Or.inr (by simp only [hmt]; omega))]
  rw [readBytes_zeroBuf]

/-- The destination bytes of such a frame: the destination identifier,
zero padded to 256 bytes. -/
theorem frame_dst (hdr : TCPHeader) (payload : List Nat)
    (hmt : hdr.MsgType.length = msgTypeLen) (hsrc : hdr.Src.length ≤ srcLen)
    (hdst : hdr.Dst.length ≤ dstLen) :
    readBytes (setPayload (setHeader zeroBuf hdr) payload) dstOffset dstLen =
      hdr.Dst ++ List.replicate (dstLen - hdr.Dst.length) 0 := by
  unfold setPayload setHeader
  simp only [msgTypeOffset, msgTypeLen, srcLen, dstLen, srcOffset_eq, dstOffset_eq,
    sizeOfSizeOffset_eq, payloadSizeOffset_eq, payloadOffset_eq] at *
  rw [readBytes_writeBytes_disjoint _ _ _ _ _ (Or.inl (by norm_num))]
  rw [readBytes_writeBytes_disjoint _ _ _ _ _ (Or.inl (by norm_num))]
  rw [readBytes_writeBytes_disjoint _ _ _ _ _ (Or.inl (by norm_num))]
  rw [readBytes_writeBytes_extend _ _ _ _ hdst]
  rw [readBytes_writeBytes_disjoint _ _ _ _ _ (Or.inr (by omega))]
  rw [readBytes_writeBytes_disjoint _ _ _ _ _ (Or.inr (by simp only [hmt]; omega))]
  rw [readBytes_zeroBuf]

/-! ## Claim C1 -/

/-- C1: for every TCPHeader whose MsgType is exactly 16 bytes and whose
Src and Dst are at most 256 bytes, and every payload of at most MTU
minus 546 bytes, writing the header and payload into a freshly pooled
all-zero MTU-sized buffer with setHeader then setPayload and reading
the frame back yields exactly what was written: the 16 bytes at offset
0 are the MsgType, the 256 bytes at offset 16 are the zero-padded Src,
the 256 bytes at offset 272 are the zero-padded Dst, and ExtractPayload
returns exactly the payload. -/
theorem C1_frame_roundtrip (mtu : Nat) (hdr : TCPHeader) (payload : List Nat)
    (hmt : hdr.MsgType.length = 16)
    (hsrc : hdr.Src.length ≤ 256)
    (hdst : hdr.Dst.length ≤ 256)
    (hmtu : 546 ≤ mtu) (hmtu2 : mtu < 2 ^ 63)
    (hp : payload.length ≤ mtu - 546) :
    readBytes (setPayload (setHeader zeroBuf hdr) payload) msgTypeOffset msgTypeLen =
      hdr.MsgType ∧
    readBytes (setPayload (setHeader zeroBuf hdr) payload) srcOffset srcLen =
      hdr.Src ++ List.replicate (srcLen - hdr.Src.length) 0 ∧
    readBytes (setPayload (setHeader zeroBuf hdr) payload) dstOffset dstLen =
      hdr.Dst ++ List.replicate (dstLen - hdr.Dst.length) 0 ∧
    ExtractPayload (setPayload (setHeader zeroBuf hdr) payload) = some payload := by
  have hplen : payload.length < 2 ^ 63 := by omega
  exact ⟨frame_msgType hdr payload hmt, frame_src hdr payload hmt hsrc,
    frame_dst hdr payload hmt hsrc hdst, ExtractPayload_setPayload _ payload hplen⟩

/-- Witness for C1 at a concrete frame: MTU 4096, a DATAMSG header with
one-byte endpoint identifiers, payload of three bytes. -/
theorem C1_frame_roundtrip_witness :
    readBytes (setPayload (setHeader zeroBuf
        ⟨strBytes DATAMSG, strBytes "a", strBytes "b"⟩) [1, 2, 3]) msgTypeOffset msgTypeLen =
      strBytes DATAMSG ∧
    readBytes (setPayload (setHeader zeroBuf
        ⟨strBytes DATAMSG, strBytes "a", strBytes "b"⟩) [1, 2, 3]) srcOffset srcLen =
      strBytes "a" ++ List.replicate (srcLen - (strBytes "a").length) 0 ∧
    readBytes (setPayload (setHeader zeroBuf
        ⟨strBytes DATAMSG, strBytes "a", strBytes "b"⟩) [1, 2, 3]) dstOffset dstLen =
      strBytes "b" ++ List.replicate (dstLen - (strBytes "b").length) 0 ∧
    ExtractPayload (setPayload (setHeader zeroBuf
        ⟨strBytes DATAMSG, strBytes "a", strBytes "b"⟩) [1, 2, 3]) = some [1, 2, 3] :=
  C1_frame_roundtrip 4096 ⟨strBytes DATAMSG, strBytes "a", strBytes "b"⟩ [1, 2, 3]
    (by decide) (by decide) (by decide) (by norm_num) (by norm_num) (by decide)

/-! ## Claim C2 -/

/-- C2: the payload Transport.Recv hands to the user-data event emit is
computed by GetPayloadFromRX, and on a DATAMSG frame whose correctly
encoded payload at offset 546 is the two bytes hi, that computation
returns the first two bytes of the frame (the beginning of the message
type tag) instead of the payload: the claim fails on the code. -/
theorem C2_recv_payload_misread :
    ExtractPayload sampleDataRx = some (strBytes "hi") ∧
    (TransportRecv sampleDataRx).2 = some [73, 78] ∧
    some [73, 78] ≠ some (strBytes "hi") := by
  decide

/-! ## Claim C3 -/

/-- C3: two violations of the return-exactly-once discipline.  First,
the CONNACK case of the receive worker calls handleConnAck, which
already returns the RX buffer, and then returns the same buffer again:
the pool sees two Return calls, not one.  Second, one iteration of the
endpoint event thread on a queued DATAMSG buffer re-enqueues that
buffer onto the receive queue and performs no pool Return at all. -/
theorem C3_buffer_return_violations :
    (recvThreadConnAckCase [] sampleDataRx { rxReturned := 0 }).2.rxReturned = 2 ∧
    (2 : Nat) ≠ 1 ∧
    (eventThreadStep { recvQueue := [sampleDataRx], rxReturned := 0, rxEvents := [] }).recvQueue =
      [sampleDataRx] ∧
    (eventThreadStep { recvQueue := [sampleDataRx], rxReturned := 0, rxEvents := [] }).rxReturned =
      0 :=
  ⟨rfl, by decide, rfl, rfl⟩

/-! ## Claim C4 -/

/-- C4: whenever the frame read back after a successful dial is a
CONNACK, initHandshake copies the source field into a nil byte slice,
which copies nothing, so it always hands the empty identifier to the
caller, and ConnectToPort therefore returns the empty identifier: the
non-empty remote identifier of the claim is never returned. -/
theorem C4_handshake_returns_empty (rx : Buf)
    (h : GetMsgTypeFromRX rx = strBytes CONNACK) :
    initHandshake rx = Except.ok [] ∧
    ConnectToPort (fun _ => true) rx 5 = (([], none), []) ∧
    (ExtractSrc rx).length = 256 := by
  have hok : initHandshake rx = Except.ok [] := by
    unfold initHandshake
    rw [if_pos h]
    simp [goCopy]
  refine ⟨hok, ?conn, ?len⟩
  · unfold ConnectToPort
    rw [dialLoop]
    simp [hok]
  · simp [ExtractSrc, length_readBytes, srcLen]

/-- Witness for C4 at the concrete CONNACK frame: the handshake
completes and returns the empty identifier even though the frame's
source field holds the server identifier. -/
theorem C4_handshake_returns_empty_witness :
    initHandshake sampleConnAckRx = Except.ok [] ∧
    ConnectToPort (fun _ => true) sampleConnAckRx 5 = (([], none), []) ∧
    (ExtractSrc sampleConnAckRx).length = 256 :=
  C4_handshake_returns_empty sampleConnAckRx (by decide)

/-! ## Claim C5 -/

/-- The dial loop when every attempt fails: it performs the sleeps of
one second, two seconds, up to maxRetry seconds and gives up. -/
theorem dialLoop_all_fail (dial : Nat → Bool) (hdial : ∀ k, dial k = false) :
    ∀ maxRetry retry delays, dialLoop dial maxRetry retry delays =
      DialOutcome.exhausted (delays ++ List.range' (retry + 1) (maxRetry - retry)) := by
  intro maxRetry
  have main : ∀ fuel retry delays, maxRetry - retry ≤ fuel →
      dialLoop dial maxRetry retry delays =
        DialOutcome.exhausted (delays ++ List.range' (retry + 1) (maxRetry - retry)) := by
    intro fuel
    induction fuel with
    | zero =>
      intro retry delays h
      rw [dialLoop, hdial retry, if_neg (by simp)]
      rw [if_neg (by omega)]
      simp [Nat.sub_eq_zero_of_le (by omega : maxRetry ≤ retry)]
    | succ fuel ih =>
      intro retry delays h
      rw [dialLoop, hdial retry]
      by_cases hlt : retry < maxRetry
      · rw [if_neg (by simp), if_pos hlt, ih (retry + 1) (delays ++ [retry + 1]) (by omega)]
        have hr : List.range' (retry + 1) (maxRetry - retry) =
            (retry + 1) :: List.range' (retry + 2) (maxRetry - (retry + 1)) := by
          have hn : maxRetry - retry = (maxRetry - (retry + 1)) + 1 := by omega
          rw [hn, List.range'_succ]
        rw [hr]
        simp
      · rw [if_neg (by simp), if_neg hlt]
        simp [Nat.sub_eq_zero_of_le (by omega : maxRetry ≤ retry)]
  intro retry delays
  exact main (maxRetry - retry) retry delays (le_refl _)

/-- C5: when every dial attempt fails, ConnectToPort sleeps one second
before retry one, two before retry two, up to maxRetry seconds, and
then returns the empty identifier with a nil error, not the non-nil
ConnectFailed error of the claim. -/
theorem C5_connect_exhaustion_nil_error (dial : Nat → Bool) (hsFrame : Buf)
    (maxRetry : Nat) (hdial : ∀ k, dial k = false) :
    ConnectToPort dial hsFrame maxRetry = (([], none), List.range' 1 maxRetry) := by
  unfold ConnectToPort
  rw [dialLoop_all_fail dial hdial maxRetry 0 []]
  simp

/-- Witness for C5: five retries, every dial failing. -/
theorem C5_connect_exhaustion_nil_error_witness :
    ConnectToPort (fun _ => false) zeroBuf 5 = (([], none), [1, 2, 3, 4, 5]) :=
  C5_connect_exhaustion_nil_error (fun _ => false) zeroBuf 5 (fun _ => rfl)

/-! ## Claim C6 -/

set_option maxRecDepth 10000 in
/-- Inversion of a successful shared-memory Init: the mapping was sized
from the raw configuration (which must have nonzero fields for the mmap
to succeed at all) and the free-block channel was preloaded with the
hardcoded default number of block indices. -/
theorem smInit_fields (cfg : SMTransportCfg) (t : SMTransport)
    (h : SMTransportCfg.Init cfg = some t) :
    cfg.blockSize ≠ 0 ∧ cfg.numBlocks ≠ 0 ∧
    t.mmapInfo.size = cfg.blockSize * cfg.numBlocks ∧
    t.availBlocks = List.range defaultNumBlocks ∧
    t.availCap = defaultNumBlocks ∧
    t.recvQueue1 = [] ∧ t.recvQueue2 = [] := by
  have hz : cfg.blockSize * cfg.numBlocks ≠ 0 := by
    intro hzz
    unfold SMTransportCfg.Init createMMAP at h
    simp [hzz] at h
  unfold SMTransportCfg.Init createMMAP at h
  simp only [if_neg hz] at h
  obtain rfl := Option.some.inj h
  have hbn := Nat.mul_ne_zero_iff.mp hz
  exact ⟨hbn.1, hbn.2, rfl, rfl, rfl, rfl, rfl⟩

set_option maxRecDepth 10000 in
/-- C6, counterexample: for the configuration with block size 4096 and
two blocks, Init succeeds but the free-block channel is preloaded with
the 512 hardcoded indices, not with the two block indices 0 and 1 of
the claim. -/
theorem C6_preload_counterexample :
    (SMTransportCfg.Init
        { blockSize := 4096, numBlocks := 2, peer1 := "A", peer2 := "B" }).map
      SMTransport.availBlocks ≠ some (List.range 2) := by
  decide

/-- C6, amended: after a successful Init the mapped region is exactly
blockSize times numBlocks bytes of the raw configuration, which are
necessarily nonzero (so the documented defaults can never apply to a
successful Init), and the free-block channel has capacity 512 and is
preloaded with exactly the 512 hardcoded block indices 0 up to 512,
regardless of numBlocks. -/
theorem C6_init_mapping_and_preload (cfg : SMTransportCfg) (t : SMTransport)
    (h : SMTransportCfg.Init cfg = some t) :
    t.mmapInfo.size = cfg.blockSize * cfg.numBlocks ∧
    cfg.blockSize ≠ 0 ∧ cfg.numBlocks ≠ 0 ∧
    t.availBlocks = List.range defaultNumBlocks ∧
    t.availCap = defaultNumBlocks := by
  have hf := smInit_fields cfg t h
  exact ⟨hf.2.2.1, hf.1, hf.2.1, hf.2.2.2.1, hf.2.2.2.2.1⟩

set_option maxRecDepth 10000 in
/-- Witness for C6 at the one-block one-byte configuration. -/
theorem C6_init_mapping_and_preload_witness :
    smSampleT.mmapInfo.size = smSampleCfg.blockSize * smSampleCfg.numBlocks ∧
    smSampleCfg.blockSize ≠ 0 ∧ smSampleCfg.numBlocks ≠ 0 ∧
    smSampleT.availBlocks = List.range defaultNumBlocks ∧
    smSampleT.availCap = defaultNumBlocks :=
  C6_init_mapping_and_preload smSampleCfg smSampleT rfl

/-! ## Claim C7 -/

/-- What survives of the ownership discipline: in every reachable state
every block index occurs across the free channel and the two receive
channels at most as often as in the initial free list, so a descriptor
is never in two channels at once and never duplicated; it can only be
lost, by the early error return of Send. -/
theorem smReachable_count_le (cfg : SMTransportCfg) (t : SMTransport)
    (h : SMReachable cfg t) (i : Nat) :
    t.availBlocks.count i + t.recvQueue1.count i + t.recvQueue2.count i ≤
      (List.range defaultNumBlocks).count i := by
  induction h with
  | init t ht =>
    have hf := smInit_fields cfg t ht
    rw [hf.2.2.2.1, hf.2.2.2.2.2.1, hf.2.2.2.2.2.2]
    simp
  | send t t2 dst data ht hstep ih =>
    unfold SMTransport.SendStep at hstep
    cases hav : t.availBlocks with
    | nil => rw [hav] at hstep; simp at hstep
    | cons b rest =>
      rw [hav] at hstep
      rw [hav] at ih
      dsimp only at hstep
      cases hw : smWriteBlock t.mmapInfo b data with
      | none => rw [hw] at hstep; simp at hstep
      | some r =>
        rw [hw] at hstep
        dsimp only at hstep
        by_cases hok : r.2 = true
        · rw [if_pos hok] at hstep
          by_cases hd : t.peer1id = dst
          · rw [if_pos hd] at hstep
            obtain rfl := Option.some.inj hstep
            by_cases hib : b = i <;>
              simp [List.count_append, List.count_cons, hib] at ih ⊢ <;> omega
          · rw [if_neg hd] at hstep
            obtain rfl := Option.some.inj hstep
            by_cases hib : b = i <;>
              simp [List.count_append, List.count_cons, hib] at ih ⊢ <;> omega
        · rw [if_neg hok] at hstep
          obtain rfl := Option.some.inj hstep
          by_cases hib : b = i <;>
            simp [List.count_cons, hib] at ih ⊢ <;> omega
  | recv t t2 src data ht hstep ih =>
    unfold SMTransport.RecvStep at hstep
    by_cases hs : t.peer1id = src
    · rw [if_pos hs] at hstep
      cases hq : t.recvQueue1 with
      | nil => rw [hq] at hstep; simp at hstep
      | cons b rest =>
        rw [hq] at hstep
        rw [hq] at ih
        dsimp only at hstep
        by_cases hb : b * t.mmapInfo.blockSize + t.mmapInfo.blockSize ≤ t.mmapInfo.size
        · rw [if_pos hb] at hstep
          obtain rfl := congrArg Prod.fst (Option.some.inj hstep)
          by_cases hib : b = i <;>
            simp [List.count_append, List.count_cons, hib] at ih ⊢ <;> omega
        · rw [if_neg hb] at hstep
          simp at hstep
    · rw [if_neg hs] at hstep
      cases hq : t.recvQueue2 with
      | nil => rw [hq] at hstep; simp at hstep
      | cons b rest =>
        rw [hq] at hstep
        rw [hq] at ih
        dsimp only at hstep
        by_cases hb : b * t.mmapInfo.blockSize + t.mmapInfo.blockSize ≤ t.mmapInfo.size
        · rw [if_pos hb] at hstep
          obtain rfl := congrArg Prod.fst (Option.some.inj hstep)
          by_cases hib : b = i <;>
            simp [List.count_append, List.count_cons, hib] at ih ⊢ <;> omega
        · rw [if_neg hb] at hstep
          simp at hstep

/-- C7: the claimed ownership invariant fails on the code.  A Send
whose data does not fit the room at the block offset reaches the early
error return of the source and drops the dequeued descriptor: in the
reachable state smDropT, obtained from the initialized sample transport
by one completed Send of a two-byte payload into a one-byte block,
descriptor 0 sits in no channel at all, while the claim requires every
descriptor to reside in exactly one place (its count below, 0, would
have to be 1, the count of index 0 in the initial free list). -/
theorem C7_send_error_drops_block :
    SMReachable smSampleCfg smDropT ∧
    smDropT.availBlocks.count 0 + smDropT.recvQueue1.count 0 +
      smDropT.recvQueue2.count 0 = 0 ∧
    (List.range defaultNumBlocks).count 0 = 1 :=
  ⟨SMReachable.send smSampleT smDropT "A" [5, 6]
      (SMReachable.init smSampleT rfl) rfl,
    by decide, by decide⟩

/-! ## Counting lemmas for the shuffle of GenerateID -/

/-- Setting one entry exchanges its contribution to a count. -/
theorem count_set_add (l : List Nat) :
    ∀ i x a : Nat, i < l.length →
      (l.set i x).count a + (if l.getD i 0 = a then 1 else 0) =
        l.count a + (if x = a then 1 else 0) := by
  induction l with
  | nil => intro i x a hi; simp at hi
  | cons hd tl ih =>
    intro i x a hi
    cases i with
    | zero =>
      by_cases h1 : hd = a <;> by_cases h2 : x = a <;>
        simp [List.count_cons, h1, h2]
    | succ j =>
      have hj : j < tl.length := by simpa using hi
      have hrec := ih j x a hj
      simp only [List.set_cons_succ, List.count_cons, List.getD_cons_succ]
      omega

/-- Setting at one index leaves the default read at another index
unchanged. -/
theorem getD_set_ne (l : List Nat) (i j x : Nat) (h : i ≠ j) :
    (l.set i x).getD j 0 = l.getD j 0 := by
  simp [List.getD, List.getElem?_set_ne h]

/-- Setting at an in-range index is read back. -/
theorem getD_set_self (l : List Nat) (i x : Nat) (h : i < l.length) :
    (l.set i x).getD i 0 = x := by
  simp [List.getD, List.getElem?_set_self, h]

/-- The swap of two in-range entries preserves every count. -/
theorem swapL_count (l : List Nat) (i j a : Nat) (hi : i < l.length) (hj : j < l.length) :
    (swapL l i j).count a = l.count a := by
  unfold swapL
  have hj2 : j < (l.set i (l.getD j 0)).length := by simpa using hj
  have step1 := count_set_add l i (l.getD j 0) a hi
  have step2 := count_set_add (l.set i (l.getD j 0)) j (l.getD i 0) a hj2
  by_cases hij : i = j
  · subst hij
    rw [getD_set_self l i (l.getD i 0) hi] at step2
    omega
  · rw [getD_set_ne l i j (l.getD j 0) hij] at step2
    omega

/-- The swap preserves the length. -/
theorem swapL_length (l : List Nat) (i j : Nat) : (swapL l i j).length = l.length := by
  simp [swapL]

/-- The shuffle preserves the length. -/
theorem shuffleAux_length (js : Nat → Nat) :
    ∀ (n : Nat) (l : List Nat), (shuffleAux js n l).length = l.length := by
  intro n
  induction n with
  | zero => intro l; rfl
  | succ m ih =>
    intro l
    rw [shuffleAux, ih, swapL_length]

/-- The shuffle preserves every count when its range fits the list. -/
theorem shuffleAux_count (js : Nat → Nat) (hjs : ∀ k, js k ≤ k) :
    ∀ (n : Nat) (l : List Nat) (a : Nat), n < l.length →
      (shuffleAux js n l).count a = l.count a := by
  intro n
  induction n with
  | zero => intro l a _; rfl
  | succ m ih =>
    intro l a hn
    rw [shuffleAux]
    have hm : m < (swapL l (m + 1) (js (m + 1))).length := by
      rw [swapL_length]
      omega
    rw [ih (swapL l (m + 1) (js (m + 1))) a hm]
    exact swapL_count l (m + 1) (js (m + 1)) a hn (by have := hjs (m + 1); omega)

/-! ## Facts about the fill phase of GenerateID -/

/-- Folded sets preserve the length. -/
theorem foldl_set_length (f : Nat → Nat) :
    ∀ (idxs : List Nat) (l : List Nat),
      (idxs.foldl (fun b i => b.set i (f i)) l).length = l.length := by
  intro idxs
  induction idxs with
  | nil => intro l; rfl
  | cons hd tl ih =>
    intro l
    rw [List.foldl_cons, ih, List.length_set]

/-- An index not written by any folded set keeps its value. -/
theorem foldl_set_getD_untouched (f : Nat → Nat) :
    ∀ (idxs : List Nat) (l : List Nat) (k : Nat), (∀ i ∈ idxs, i ≠ k) →
      (idxs.foldl (fun b i => b.set i (f i)) l).getD k 0 = l.getD k 0 := by
  intro idxs
  induction idxs with
  | nil => intro l k _; rfl
  | cons hd tl ih =>
    intro l k hne
    rw [List.foldl_cons, ih _ k (fun i hmem => hne i (List.mem_cons_of_mem hd hmem))]
    have hhd : hd ≠ k := hne hd (List.mem_cons_self hd tl)
    simp [List.getD, List.getElem?_set_ne hhd]

/-- The fill phase produces 256 bytes. -/
theorem generateIDFill_length (d0 : Nat) (picks : Nat → Nat) :
    (generateIDFill d0 picks).length = 256 := by
  unfold generateIDFill
  rw [foldl_set_length]
  rw [List.length_set, List.length_replicate]

/-- Index 1 of the fill is never written and stays zero: the fill loop
of the source starts at index 2. -/
theorem generateIDFill_one (d0 : Nat) (picks : Nat → Nat) :
    (generateIDFill d0 picks).getD 1 0 = 0 := by
  unfold generateIDFill
  rw [foldl_set_getD_untouched]
  · rw [getD_set_ne _ _ _ _ (by omega : (0 : Nat) ≠ 1)]
    simp [List.getD]
  · intro i hmem
    have := List.mem_range'_1.mp hmem
    omega

/-- Index 0 of the fill holds the chosen digit byte. -/
theorem generateIDFill_zero (d0 : Nat) (picks : Nat → Nat) :
    (generateIDFill d0 picks).getD 0 0 = digits.getD d0 0 := by
  unfold generateIDFill
  rw [foldl_set_getD_untouched]
  · exact getD_set_self _ _ _ (by simp)
  · intro i hmem
    have := List.mem_range'_1.mp hmem
    omega

/-- The identifier always has 256 characters and the byte written at an
untouched or chosen index survives the shuffle as a member. -/
theorem generateID_length (d0 : Nat) (picks js : Nat → Nat) :
    (GenerateID d0 picks js).length = 256 := by
  unfold GenerateID
  rw [shuffleAux_length, generateIDFill_length]

/-- A value sitting at an in-range index of the fill is a member of the
shuffled identifier. -/
theorem generateID_mem_of_fill (d0 : Nat) (picks js : Nat → Nat) (hjs : ∀ k, js k ≤ k)
    (k v : Nat) (hk : k < 256) (hv : (generateIDFill d0 picks).getD k 0 = v) :
    v ∈ GenerateID d0 picks js := by
  have hlen := generateIDFill_length d0 picks
  have hmem : v ∈ generateIDFill d0 picks := by
    rw [List.getD_eq_getElem _ 0 (by omega)] at hv
    rw [← hv]
    exact List.getElem_mem (by omega)
  have hcount : 0 < (generateIDFill d0 picks).count v := List.count_pos_iff.mpr hmem
  unfold GenerateID
  apply List.count_pos_iff.mp
  rw [shuffleAux_count js hjs 255 _ v (by omega)]
  exact hcount

/-- The NUL byte at index 1 of the fill is always a member of the
generated identifier. -/
theorem generateID_mem_nul (d0 : Nat) (picks js : Nat → Nat) (hjs : ∀ k, js k ≤ k) :
    0 ∈ GenerateID d0 picks js :=
  generateID_mem_of_fill d0 picks js hjs 1 0 (by omega) (generateIDFill_one d0 picks)

/-- The chosen digit byte is always a member of the generated
identifier. -/
theorem generateID_mem_digit (d0 : Nat) (picks js : Nat → Nat) (hjs : ∀ k, js k ≤ k) :
    digits.getD d0 0 ∈ GenerateID d0 picks js :=
  generateID_mem_of_fill d0 picks js hjs 0 (digits.getD d0 0) (by omega)
    (generateIDFill_zero d0 picks)

/-! ## Claim C8 -/

/-- C8: the identifier returned by GenerateID always has 256
characters, but for every possible outcome of the random draws it
contains the NUL byte, which lies outside the 62-character alphanumeric
alphabet: the fill loop of the source starts at index 2, so index 1 is
never written, and the final shuffle only permutes the buffer.  The
first-character-is-a-digit property is also destroyed by the shuffle. -/
theorem C8_generateID_nul_byte :
    (∀ (d0 : Nat) (picks js : Nat → Nat), (∀ k, js k ≤ k) →
      (GenerateID d0 picks js).length = 256 ∧ 0 ∈ GenerateID d0 picks js) ∧
    0 ∉ allChars ∧ 0 ∉ digits :=
  ⟨fun d0 picks js hjs =>
    ⟨generateID_length d0 picks js, generateID_mem_nul d0 picks js hjs⟩,
    by decide, by decide⟩

/-- Witness for C8 with every random draw equal to zero. -/
theorem C8_generateID_nul_byte_witness :
    (GenerateID 0 (fun _ => 0) (fun _ => 0)).length = 256 ∧
    0 ∈ GenerateID 0 (fun _ => 0) (fun _ => 0) :=
  C8_generateID_nul_byte.1 0 (fun _ => 0) (fun _ => 0) (fun k => Nat.zero_le k)

/-! ## Claim C9 -/

/-- C9, counterexample: with two TX buffers, no send worker and the
unbuffered send channel the source creates, the claimed run of three
SendMsg calls does not happen: already the first call fails to
complete (it blocks on the channel send), so the first two calls are
not successful completions as the claim states. -/
theorem C9_counterexample :
    ¬ ((SendMsg (tcpInitSendState 2)).1 = SendMsgResult.ok ∧
       (SendMsg (SendMsg (tcpInitSendState 2)).2).1 = SendMsgResult.ok ∧
       (SendMsg (SendMsg (SendMsg (tcpInitSendState 2)).2).2).1 =
         SendMsgResult.poolExhausted) := by
  decide

/-- C9, amended: the first SendMsg call on a worker-less transport
takes one TX buffer out of the pool and then blocks forever on the
unbuffered send channel, enqueuing nothing; no call returns, so the
PoolExhausted error of the scenario is never surfaced (it would only be
reported by the third call of the hypothetical continuation, once the
pool is empty). -/
theorem C9_first_send_blocks :
    SendMsg (tcpInitSendState 2) =
      (SendMsgResult.blocked,
        { txAvail := 1, sendQueue := [], sendQueueCap := 0, workerRunning := false }) :=
  rfl

/-! ## Claim C10 -/

/-- C10: a frame built by the facade Send over TCP carries only the
message type and the source endpoint identifier; the 256 destination
bytes stay zero, so the identifier that the facade Recv extracts and
hands to LookupReceiver is the 256-NUL-byte string, which no generated
endpoint identifier can equal (every generated identifier contains a
digit byte). -/
theorem C10_facade_dst_zero (epID msg : List Nat) (hid : epID.length ≤ 256) :
    readBytes (facadeSendFrame epID msg) dstOffset dstLen = List.replicate 256 0 ∧
    (TransportRecv (facadeSendFrame epID msg)).1 = List.replicate 256 0 ∧
    (∀ (d0 : Nat) (picks js : Nat → Nat), d0 < 10 → (∀ k, js k ≤ k) →
      GenerateID d0 picks js ≠ List.replicate 256 0) := by
  have hmt16 : (strBytes "INTERNAL:DATAMSG").length = msgTypeLen := by decide
  have hdst := frame_dst
    { MsgType := strBytes "INTERNAL:DATAMSG", Src := epID, Dst := [] } msg
    hmt16 hid (by simp)
  have hzero : readBytes (facadeSendFrame epID msg) dstOffset dstLen =
      List.replicate 256 0 := by
    unfold facadeSendFrame
    simpa [dstLen] using hdst
  refine ⟨hzero, ?recv, ?gen⟩
  · unfold TransportRecv ExtractDest
    exact hzero
  · intro d0 picks js hd0 hjs hEq
    have hmem := generateID_mem_digit d0 picks js hjs
    rw [hEq] at hmem
    have hz := List.eq_of_mem_replicate hmem
    have hball : ∀ d < 10, 48 ≤ digits.getD d 0 := by decide
    have := hball d0 hd0
    omega

/-- Witness for C10 at a one-byte endpoint identifier and payload. -/
theorem C10_facade_dst_zero_witness :
    readBytes (facadeSendFrame (strBytes "e") [7]) dstOffset dstLen =
      List.replicate 256 0 ∧
    (TransportRecv (facadeSendFrame (strBytes "e") [7])).1 = List.replicate 256 0 ∧
    GenerateID 3 (fun _ => 0) (fun _ => 0) ≠ List.replicate 256 0 :=
  have h := C10_facade_dst_zero (strBytes "e") [7] (by decide)
  ⟨h.1, h.2.1, h.2.2 3 (fun _ => 0) (fun _ => 0) (by decide) (fun k => Nat.zero_le k)⟩

end Comm
